import Mathlib

/-!
Verification development for the `azure-video-understanding` notebook
(`video-understanding.ipynb`).

The notebook is a linear pipeline:

1. Frame Sampler — opens a video, computes
   `frame_skip = max(1, int(fps // target_fps))`, walks the native frames
   keeping every `frame_skip`-th one (counter starting at 0), JPEG-encodes
   each kept frame with `cv2.imencode` and base64-encodes the buffer, and
   calls `video.release()` after the loop.
2. Request Builder — builds a single `messages` value whose content is one
   text item followed by one `image_url` item per sampled frame, each with
   url `"data:image/jpeg;base64," ++ frame` and a `detail` field that the
   source writes as the Python set literal `\x7bdetail\x7d`.
3. Cost Reporter — `input_cost = input_tokens / 1_000_000 * 2`,
   `output_cost = output_tokens / 1_000_000 * 8`,
   `total_cost = input_cost + output_cost`, and
   `total_cost / len(base64Frames)` for the per-frame figure.

The embedding below models Python floats by exact rationals, Python byte
strings by `List ℕ` (each entry < 256), Python `str` payloads by
`List Char`, raising exceptions by `Except String`, and the external JPEG
codec `cv2.imencode` by an arbitrary function parameter `imenc`.
-/

namespace VideoUnderstanding

/-- Python float floor division `a // b`: raises `ZeroDivisionError` when
`b = 0`, otherwise returns `⌊a / b⌋` as a (float-valued) number. -/
def pyFloordiv (a b : ℚ) : Except String ℚ :=
  if b = 0 then Except.error "ZeroDivisionError: float floor division by zero"
  else Except.ok ((⌊a / b⌋ : ℤ) : ℚ)

/-- Python `int(q)`: truncation toward zero. -/
def pyInt (q : ℚ) : ℤ :=
  if 0 ≤ q then ⌊q⌋ else ⌈q⌉

/-- Source line `frame_skip = max(1, int(fps // target_fps))`, with the
potential `ZeroDivisionError` of `//` made explicit. -/
def frame_skip (fps target_fps : ℚ) : Except String ℤ :=
  (pyFloordiv fps target_fps).map (fun q => max 1 (pyInt q))

/-- Source line `input_cost = input_tokens / 1_000_000 * 2`. -/
def input_cost (input_tokens : ℕ) : ℚ :=
  (input_tokens : ℚ) / 1000000 * 2

/-- Source line `output_cost = output_tokens / 1_000_000 * 8`. -/
def output_cost (output_tokens : ℕ) : ℚ :=
  (output_tokens : ℚ) / 1000000 * 8

/-- Source line `total_cost = input_cost + output_cost`. -/
def total_cost (input_tokens output_tokens : ℕ) : ℚ :=
  input_cost input_tokens + output_cost output_tokens

/-- Source expression `total_cost / len(base64Frames)`: Python division
raises `ZeroDivisionError` when the frame list is empty. -/
def cost_per_frame (input_tokens output_tokens frame_count : ℕ) : Except String ℚ :=
  if frame_count = 0 then Except.error "ZeroDivisionError: float division by zero"
  else Except.ok (total_cost input_tokens output_tokens / (frame_count : ℚ))

lemma pyInt_intCast (z : ℤ) : pyInt (z : ℚ) = z := by
  unfold pyInt
  split <;> simp

lemma frame_skip_ok {fps target_fps : ℚ} (ht : target_fps ≠ 0) :
    frame_skip fps target_fps = Except.ok (max 1 ⌊fps / target_fps⌋) := by
  unfold frame_skip pyFloordiv
  rw [if_neg ht]
  simp [Except.map, pyInt_intCast]

/-- **C1.** For every native rate `fps` and every `target_fps > 0`, the
stride computed by the Frame Sampler is exactly
`max(1, floor(fps / target_fps))`, and in particular it is at least 1. -/
theorem frame_skip_eq_max_one_floor (fps target_fps : ℚ) (ht : 0 < target_fps) :
    frame_skip fps target_fps = Except.ok (max 1 ⌊fps / target_fps⌋) ∧
      1 ≤ max 1 ⌊fps / target_fps⌋ := by
  refine ⟨frame_skip_ok (ne_of_gt ht), le_max_left 1 _⟩

/-- Witness for C1: at `fps = 30`, `target_fps = 7` the stride is
`max 1 ⌊30/7⌋ = 4`. -/
theorem frame_skip_eq_max_one_floor_witness :
    (0 : ℚ) < 7 ∧
      (frame_skip 30 7 = Except.ok (max 1 ⌊(30 : ℚ) / 7⌋) ∧
        1 ≤ max 1 ⌊(30 : ℚ) / 7⌋) :=
  ⟨by norm_num, frame_skip_eq_max_one_floor 30 7 (by norm_num)⟩

/-- **C8 (counterexample).** With native `fps = 0` and `target_fps = 1 > 0`,
the stride computation does NOT raise a division error: it succeeds and
returns stride 1. -/
theorem frame_skip_zero_fps_no_error :
    frame_skip 0 1 = Except.ok 1 := by
  rw [frame_skip_ok (by norm_num : (1 : ℚ) ≠ 0)]
  norm_num

/-- **C8 (amended).** A native frame rate of 0 with `target_fps > 0` is
handled without any division error: the stride computation succeeds and
yields stride 1 (every frame sampled). A division error occurs exactly when
`target_fps = 0`. -/
theorem frame_skip_zero_cases (fps target_fps : ℚ) (ht : 0 < target_fps) :
    frame_skip 0 target_fps = Except.ok 1 ∧
      frame_skip fps 0 =
        Except.error "ZeroDivisionError: float floor division by zero" := by
  constructor
  · rw [frame_skip_ok (ne_of_gt ht)]
    norm_num
  · unfold frame_skip pyFloordiv
    simp [Except.map]

/-- Witness for C8 (amended) at `fps = 3`, `target_fps = 2`. -/
theorem frame_skip_zero_cases_witness :
    (0 : ℚ) < 2 ∧
      (frame_skip 0 2 = Except.ok 1 ∧
        frame_skip 3 0 =
          Except.error "ZeroDivisionError: float floor division by zero") :=
  ⟨by norm_num, frame_skip_zero_cases 3 2 (by norm_num)⟩

/-- **C6.** The Cost Reporter computes `input_cost = tokens/1e6 * 2`,
`output_cost = tokens/1e6 * 8`, their sum, and `total / frame_count`; on
the spec's example (5100 input tokens, 300 output tokens, 30 frames) this
gives $0.0102, $0.0024, $0.0126 and $0.00042 per frame. -/
theorem cost_breakdown_correct (it ot n : ℕ) (hn : 0 < n) :
    input_cost it = (it : ℚ) / 1000000 * 2 ∧
      output_cost ot = (ot : ℚ) / 1000000 * 8 ∧
      total_cost it ot = (it : ℚ) / 1000000 * 2 + (ot : ℚ) / 1000000 * 8 ∧
      cost_per_frame it ot n =
        Except.ok (((it : ℚ) / 1000000 * 2 + (ot : ℚ) / 1000000 * 8) / (n : ℚ)) ∧
      input_cost 5100 = 102 / 10000 ∧
      output_cost 300 = 24 / 10000 ∧
      total_cost 5100 300 = 126 / 10000 ∧
      cost_per_frame 5100 300 30 = Except.ok (42 / 100000) := by
  refine ⟨rfl, rfl, rfl, ?_, ?_, ?_, ?_, ?_⟩
  · unfold cost_per_frame
    rw [if_neg (Nat.pos_iff_ne_zero.mp hn)]
    rfl
  · unfold input_cost; norm_num
  · unfold output_cost; norm_num
  · unfold total_cost input_cost output_cost; norm_num
  · unfold cost_per_frame total_cost input_cost output_cost; norm_num

/-- Witness for C6 at the spec's own example (30 frames). -/
theorem cost_breakdown_correct_witness :
    0 < 30 ∧ cost_per_frame 5100 300 30 = Except.ok (42 / 100000) :=
  ⟨by norm_num, (cost_breakdown_correct 5100 300 30 (by norm_num)).2.2.2.2.2.2.2⟩

/-- **C7.** With zero sampled frames the Cost Reporter fails with an error
(the division-by-zero / empty-result condition) instead of producing an
undefined numeric value, and for every positive frame count it produces a
well-defined rational cost per frame. -/
theorem cost_per_frame_zero_frames_errors (it ot : ℕ) :
    cost_per_frame it ot 0 =
        Except.error "ZeroDivisionError: float division by zero" ∧
      ∀ n : ℕ, 0 < n → ∃ q : ℚ, cost_per_frame it ot n = Except.ok q := by
  constructor
  · rfl
  · intro n hn
    refine ⟨total_cost it ot / (n : ℚ), ?_⟩
    unfold cost_per_frame
    rw [if_neg (Nat.pos_iff_ne_zero.mp hn)]

/-- Witness for C7 at the spec's example token counts. -/
theorem cost_per_frame_zero_frames_errors_witness :
    cost_per_frame 5100 300 0 =
        Except.error "ZeroDivisionError: float division by zero" ∧
      ∃ q : ℚ, cost_per_frame 5100 300 30 = Except.ok q :=
  ⟨(cost_per_frame_zero_frames_errors 5100 300).1,
    (cost_per_frame_zero_frames_errors 5100 300).2 30 (by norm_num)⟩

/-- The base64 alphabet used by Python's `base64.b64encode`. -/
def b64alphabet : List Char :=
  "ABCDEFGHIJKLMNOPQRSTUVWXYZabcdefghijklmnopqrstuvwxyz0123456789+/".toList

/-- Sextet value to base64 character. -/
def b64char (n : ℕ) : Char := b64alphabet.getD n '?'

def b64valAux (ch : Char) : List Char → ℕ → Option ℕ
  | [], _ => none
  | c :: rest, k => if ch = c then some k else b64valAux ch rest (k + 1)

/-- Base64 character back to its sextet value (`none` for `=` and any
character outside the alphabet). -/
def b64val (ch : Char) : Option ℕ := b64valAux ch b64alphabet 0

/-- `base64.b64encode` on a byte string (each byte `< 256`), producing the
text of the standard padded base64 encoding. -/
def b64encode : List ℕ → List Char
  | [] => []
  | [a] => [b64char (a / 4), b64char (a % 4 * 16), '=', '=']
  | [a, b] => [b64char (a / 4), b64char (a % 4 * 16 + b / 16), b64char (b % 16 * 4), '=']
  | a :: b :: c :: rest =>
      b64char (a / 4) :: b64char (a % 4 * 16 + b / 16) ::
        b64char (b % 16 * 4 + c / 64) :: b64char (c % 64) :: b64encode rest

/-- Standard base64 decoding of a padded base64 text, `none` on malformed
input (`base64.b64decode`). -/
def b64decode : List Char → Option (List ℕ)
  | [] => some []
  | c1 :: c2 :: c3 :: c4 :: rest =>
      match b64val c1, b64val c2 with
      | some v1, some v2 =>
        if c3 = '=' then
          if c4 = '=' ∧ rest = [] then some [v1 * 4 + v2 / 16] else none
        else
          match b64val c3 with
          | some v3 =>
            if c4 = '=' then
              if rest = [] then some [v1 * 4 + v2 / 16, v2 % 16 * 16 + v3 / 4]
              else none
            else
              match b64val c4, b64decode rest with
              | some v4, some bs =>
                  some ((v1 * 4 + v2 / 16) :: (v2 % 16 * 16 + v3 / 4) ::
                    (v3 % 4 * 64 + v4) :: bs)
              | _, _ => none
          | none => none
      | _, _ => none
  | _ => none

/-!
## Frame Sampler

The extraction loop of the notebook, over a video modelled as the list of
frames that `video.read()` yields before it reports failure (end-of-stream
and decode failure both surface as `success == False`, which breaks the
loop normally).  `imenc` stands for the external JPEG codec
`cv2.imencode(".jpg", frame)`; `frame_count` is the running counter.
-/

/-- The loop body chain: `if frame_count % frame_skip == 0:` append
`base64.b64encode(cv2.imencode(".jpg", frame)[1]).decode("utf-8")`.
Direct translation of the `while` loop, accumulating the kept frames. -/
def base64FramesAux {α : Type} (imenc : α → List ℕ) (s : ℕ) :
    ℕ → List α → List (List Char)
  | _, [] => []
  | c, f :: rest =>
      if c % s = 0 then b64encode (imenc f) :: base64FramesAux imenc s (c + 1) rest
      else base64FramesAux imenc s (c + 1) rest

/-- The sampler output `base64Frames` for a whole video (counter starts
at 0). -/
def base64Frames {α : Type} (imenc : α → List ℕ) (s : ℕ) (frames : List α) :
    List (List Char) :=
  base64FramesAux imenc s 0 frames

/-- Ghost-instrumented sampler: identical selection logic, but each kept
frame is paired with its original native frame index `frame_count`. -/
def sampleWithIdx {α : Type} (imenc : α → List ℕ) (s : ℕ) :
    ℕ → List α → List (ℕ × List Char)
  | _, [] => []
  | c, f :: rest =>
      if c % s = 0 then
        (c, b64encode (imenc f)) :: sampleWithIdx imenc s (c + 1) rest
      else sampleWithIdx imenc s (c + 1) rest

/-- Original native indices of the emitted frames. -/
def sampledIndices {α : Type} (imenc : α → List ℕ) (s : ℕ) (frames : List α) :
    List ℕ :=
  (sampleWithIdx imenc s 0 frames).map Prod.fst

lemma base64FramesAux_eq_map_snd {α : Type} (imenc : α → List ℕ) (s : ℕ) :
    ∀ (c : ℕ) (frames : List α),
      base64FramesAux imenc s c frames = (sampleWithIdx imenc s c frames).map Prod.snd
  | _, [] => rfl
  | c, f :: rest => by
      unfold base64FramesAux sampleWithIdx
      by_cases h : c % s = 0 <;>
        simp [h, base64FramesAux_eq_map_snd imenc s (c + 1) rest]

lemma sampleWithIdx_fst {α : Type} (imenc : α → List ℕ) (s : ℕ) :
    ∀ (c : ℕ) (frames : List α),
      (sampleWithIdx imenc s c frames).map Prod.fst =
        ((List.range frames.length).map (· + c)).filter (fun i => i % s = 0)
  | _, [] => rfl
  | c, f :: rest => by
      unfold sampleWithIdx
      rw [List.length_cons, List.range_succ_eq_map]
      have hf : ((fun x : ℕ => x + c) ∘ Nat.succ) = (fun x : ℕ => x + (c + 1)) := by
        funext x
        simp [Function.comp]
        omega
      by_cases h : c % s = 0 <;>
        simp [h, List.filter_cons, sampleWithIdx_fst imenc s (c + 1) rest, hf]

lemma filter_range_mod_eq (s : ℕ) (hs : 1 ≤ s) :
    ∀ n : ℕ, (List.range n).filter (fun i => i % s = 0) =
      (List.range ((n + s - 1) / s)).map (fun q => q * s)
  | 0 => by
      have h0 : (s - 1) / s = 0 := Nat.div_eq_of_lt (by omega)
      simp [h0]
  | n + 1 => by
      rw [List.range_succ, List.filter_append, filter_range_mod_eq s hs n]
      by_cases h : n % s = 0
      · obtain ⟨q, hq⟩ : s ∣ n := Nat.dvd_of_mod_eq_zero h
        have hlt : s - 1 < s := by omega
        have h1 : (n + s - 1) / s = q := by
          have he : n + s - 1 = s * q + (s - 1) := by omega
          rw [he, Nat.mul_add_div (by omega)]
          simp [Nat.div_eq_of_lt hlt]
        have h2 : (n + 1 + s - 1) / s = q + 1 := by
          have he : n + 1 + s - 1 = s * (q + 1) := by
            rw [hq, Nat.mul_add, Nat.mul_one]
            omega
          rw [he, Nat.mul_div_cancel_left _ (by omega)]
        rw [h1, h2, List.range_succ, List.map_append]
        simp [h, hq, Nat.mul_comm]
      · have h2 : (n + 1 + s - 1) / s = (n + s - 1) / s := by
          have hn1 : n + 1 + s - 1 = (n + s - 1) + 1 := by omega
          rw [hn1]
          apply Nat.succ_div_of_not_dvd
          intro hdvd
          have he : n + s - 1 + 1 = s + n := by omega
          rw [he] at hdvd
          obtain ⟨q', hq'⟩ := (Nat.dvd_add_right (dvd_refl s)).mp hdvd
          exact h (by rw [hq']; exact Nat.mul_mod_right s q')
        rw [h2]
        simp [h]

lemma length_filter_range_mod (n s : ℕ) (hs : 1 ≤ s) :
    ((List.range n).filter (fun i => i % s = 0)).length = (n + s - 1) / s := by
  rw [filter_range_mod_eq s hs n, List.length_map, List.length_range]

lemma natDiv_cast_ceil (n s : ℕ) (hs : 1 ≤ s) :
    (((n + s - 1) / s : ℕ) : ℤ) = ⌈(n : ℚ) / (s : ℚ)⌉ := by
  have hsQ : (0 : ℚ) < (s : ℚ) := by exact_mod_cast hs
  set z := (n + s - 1) / s with hzdef
  have h1 : s * z + (n + s - 1) % s = n + s - 1 := Nat.div_add_mod _ _
  have h2 : (n + s - 1) % s < s := Nat.mod_lt _ (by omega)
  have hle : n ≤ s * z := by omega
  have hlt : s * z < n + s := by omega
  have hcast : ((s * z : ℕ) : ℚ) = (z : ℚ) * (s : ℚ) := by push_cast; ring
  rw [eq_comm, Int.ceil_eq_iff]
  constructor
  · rw [lt_div_iff₀ hsQ]
    push_cast
    have hq : ((s * z : ℕ) : ℚ) < (n : ℚ) + (s : ℚ) := by exact_mod_cast hlt
    rw [hcast] at hq
    linarith
  · rw [div_le_iff₀ hsQ]
    push_cast
    have hq : ((n : ℕ) : ℚ) ≤ ((s * z : ℕ) : ℚ) := by exact_mod_cast hle
    rw [hcast] at hq
    linarith

lemma sampledIndices_eq {α : Type} (imenc : α → List ℕ) (s : ℕ) (hs : 1 ≤ s)
    (frames : List α) :
    sampledIndices imenc s frames =
      (List.range ((frames.length + s - 1) / s)).map (fun q => q * s) := by
  rw [sampledIndices, sampleWithIdx_fst, ← filter_range_mod_eq s hs]
  congr 1
  simp

/-- **C2.** The number of frames emitted by the sampling loop is exactly
`ceil(total_native_frames / stride)`, for every stride `s ≥ 1`, every video
and every codec. -/
theorem sampled_frame_count {α : Type} (imenc : α → List ℕ) (s : ℕ)
    (frames : List α) (hs : 1 ≤ s) :
    ((base64Frames imenc s frames).length : ℤ) =
      ⌈(frames.length : ℚ) / (s : ℚ)⌉ := by
  have h1 : (base64Frames imenc s frames).length =
      (sampledIndices imenc s frames).length := by
    rw [base64Frames, base64FramesAux_eq_map_snd, sampledIndices,
      List.length_map, List.length_map]
  rw [h1, sampledIndices_eq imenc s hs frames, List.length_map,
    List.length_range, natDiv_cast_ceil _ _ hs]

/-- Witness for C2, the spec's end-to-end scenario: a 30-second video at 30
native fps (900 native frames) sampled with stride 30 yields exactly 30
frames. -/
theorem sampled_frame_count_witness :
    1 ≤ 30 ∧
      (base64Frames (fun n : ℕ => [n % 256]) 30 (List.range 900)).length = 30 := by
  refine ⟨by norm_num, ?_⟩
  have h := sampled_frame_count (fun n : ℕ => [n % 256]) 30 (List.range 900)
    (by norm_num)
  rw [List.length_range] at h
  norm_num at h
  exact_mod_cast h

lemma sampledIndices_pairwise {α : Type} (imenc : α → List ℕ) (s : ℕ)
    (hs : 1 ≤ s) (frames : List α) :
    List.Pairwise (· < ·) (sampledIndices imenc s frames) := by
  rw [sampledIndices_eq imenc s hs frames, List.pairwise_map]
  refine List.Pairwise.imp ?_ (List.pairwise_lt_range _)
  intro a b hab
  exact (Nat.mul_lt_mul_right (show 0 < s by omega)).mpr hab

/-- **C3.** The original native indices of the emitted frames are exactly
`0, s, 2*s, ...` (one entry per sampled frame): the sequence is strictly
increasing (hence no frame is emitted twice), starts at 0 when nonempty,
and every entry is a multiple of the stride. -/
theorem sampled_indices_exact {α : Type} (imenc : α → List ℕ) (s : ℕ)
    (frames : List α) (hs : 1 ≤ s) :
    sampledIndices imenc s frames =
        (List.range ((frames.length + s - 1) / s)).map (fun q => q * s) ∧
      List.Pairwise (· < ·) (sampledIndices imenc s frames) ∧
      ∀ i ∈ sampledIndices imenc s frames, s ∣ i := by
  refine ⟨sampledIndices_eq imenc s hs frames,
    sampledIndices_pairwise imenc s hs frames, ?_⟩
  intro i hi
  rw [sampledIndices_eq imenc s hs frames, List.mem_map] at hi
  obtain ⟨q, _, hq⟩ := hi
  exact ⟨q, by rw [← hq, Nat.mul_comm]⟩

/-- Witness for C3: five frames with stride 2 give indices `[0, 2, 4]`. -/
theorem sampled_indices_exact_witness :
    1 ≤ 2 ∧
      (sampledIndices (fun n : ℕ => [n]) 2 [10, 20, 30, 40, 50] =
          (List.range ((5 + 2 - 1) / 2)).map (fun q => q * 2) ∧
        List.Pairwise (· < ·) (sampledIndices (fun n : ℕ => [n]) 2 [10, 20, 30, 40, 50]) ∧
        ∀ i ∈ sampledIndices (fun n : ℕ => [n]) 2 [10, 20, 30, 40, 50], 2 ∣ i) := by
  refine ⟨by norm_num, ?_⟩
  have h := sampled_indices_exact (fun n : ℕ => [n]) 2 [10, 20, 30, 40, 50]
    (by norm_num)
  simpa using h

/-!
## Request Builder

The `messages` literal of the notebook: one user message whose content is a
text item followed by one `image_url` item per sampled frame.  The source's
`"detail": \x7bdetail\x7d` writes a Python set literal around the detail
string, so the `detail` field is modelled as a `Finset String`.
-/

/-- One element of the `content` array. -/
inductive ContentItem where
  | text (t : String)
  | image_url (url : List Char) (detail : Finset String)
deriving DecidableEq

/-- One element of the `messages` array. -/
structure Message where
  role : String
  content : List ContentItem
deriving DecidableEq

/-- The fixed data-URI prefix `data:image/jpeg;base64,`. -/
def dataURIPrefix : List Char := "data:image/jpeg;base64,".toList

/-- The source's image element: url is the prefix plus the base64 text, and
the detail field is the set literal wrapping the detail string. -/
def imageItem (d : String) (frame : List Char) : ContentItem :=
  ContentItem.image_url (dataURIPrefix ++ frame) {d}

/-- Source line `detail = "low"`. -/
def detail : String := "low"

/-- The notebook's fixed text instruction. -/
def instruction : String :=
  "These are frames from a video. Please describe what happens in the video."

/-- Source value `messages`: a single user message, text item first, then
one image item per element of `base64Frames`, in list order. -/
def messages (instr d : String) (bframes : List (List Char)) : List Message :=
  [⟨"user", ContentItem.text instr :: bframes.map (imageItem d)⟩]

def isImage : ContentItem → Bool
  | ContentItem.image_url _ _ => true
  | ContentItem.text _ => false

lemma filter_isImage_map (d : String) (l : List (List Char)) :
    (l.map (imageItem d)).filter isImage = l.map (imageItem d) := by
  apply List.filter_eq_self.mpr
  intro a ha
  obtain ⟨f, _, rfl⟩ := List.mem_map.mp ha
  rfl

/-- **C4.** The request built from a sampler run has exactly one user
message; its first content element is the text instruction; it contains
exactly one image reference per emitted frame; and the image references
appear in the order of the sampler's output, whose original frame indices
are strictly increasing. -/
theorem request_structure {α : Type} (instr d : String) (imenc : α → List ℕ)
    (s : ℕ) (frames : List α) (hs : 1 ≤ s) :
    ∃ content : List ContentItem,
      messages instr d (base64Frames imenc s frames) = [⟨"user", content⟩] ∧
        content.head? = some (ContentItem.text instr) ∧
        (content.filter isImage).length = (base64Frames imenc s frames).length ∧
        content.tail =
          (sampleWithIdx imenc s 0 frames).map (fun p => imageItem d p.2) ∧
        List.Pairwise (· < ·) (sampledIndices imenc s frames) := by
  refine ⟨ContentItem.text instr ::
    (base64Frames imenc s frames).map (imageItem d), rfl, rfl, ?_, ?_,
    sampledIndices_pairwise imenc s hs frames⟩
  · rw [List.filter_cons]
    simp [isImage, filter_isImage_map]
  · rw [List.tail_cons, base64Frames, base64FramesAux_eq_map_snd, List.map_map]
    rfl

/-- Witness for C4: three frames, stride 2, two sampled frames. -/
theorem request_structure_witness :
    1 ≤ 2 ∧
      ∃ content : List ContentItem,
        messages instruction detail
            (base64Frames (fun n : ℕ => [n]) 2 [5, 6, 7]) = [⟨"user", content⟩] ∧
          content.head? = some (ContentItem.text instruction) ∧
          (content.filter isImage).length =
            (base64Frames (fun n : ℕ => [n]) 2 [5, 6, 7]).length ∧
          content.tail =
            (sampleWithIdx (fun n : ℕ => [n]) 2 0 [5, 6, 7]).map
              (fun p => imageItem detail p.2) ∧
          List.Pairwise (· < ·) (sampledIndices (fun n : ℕ => [n]) 2 [5, 6, 7]) :=
  ⟨by norm_num,
    request_structure instruction detail (fun n : ℕ => [n]) 2 [5, 6, 7] (by norm_num)⟩

/-- **C5 (code evaluation).** At the notebook's own configuration
(`detail = "low"`) with one sampled frame, the image reference's detail
field is the one-element set `\x7b"low"\x7d` — the DetailLevel wrapped in a
collection of size 1 — rather than the plain string value. -/
theorem detail_field_is_singleton_set :
    messages instruction detail [['A']] =
        [⟨"user", [ContentItem.text instruction,
          ContentItem.image_url (dataURIPrefix ++ ['A'])
            ({"low"} : Finset String)]⟩] ∧
      ({"low"} : Finset String).card = 1 ∧
      "low" ∈ ({"low"} : Finset String) := by
  refine ⟨rfl, Finset.card_singleton _, Finset.mem_singleton_self _⟩

/-!
## Resource release (C9)

The loop body can raise (modelled by `imenc` returning an error, e.g. a
`cv2.imencode` failure).  `video.release()` is the straight-line statement
after the `while` loop, with no try/finally in the source: it runs exactly
when the loop finishes normally (end-of-stream or `video.read()` returning
`success == False`), and is skipped when an exception propagates out of
the loop body.
-/

/-- The sampling loop with a fallible codec. -/
def runLoop {α : Type} (imenc : α → Except String (List ℕ)) (s : ℕ) :
    ℕ → List α → Except String (List (List Char))
  | _, [] => Except.ok []
  | c, f :: rest =>
      if c % s = 0 then
        match imenc f with
        | Except.error e => Except.error e
        | Except.ok buf =>
            (runLoop imenc s (c + 1) rest).map (fun bs => b64encode buf :: bs)
      else runLoop imenc s (c + 1) rest

/-- Outcome of the extraction cell: the loop's result, and whether the
statement `video.release()` was ever executed. -/
structure ExtractRun where
  result : Except String (List (List Char))
  released : Bool

/-- The extraction cell: run the loop; `video.release()` is reached only on
normal loop exit, an exception propagates past it. -/
def extractFrames {α : Type} (imenc : α → Except String (List ℕ)) (s : ℕ)
    (frames : List α) : ExtractRun :=
  match runLoop imenc s 0 frames with
  | Except.ok out => ⟨Except.ok out, true⟩
  | Except.error e => ⟨Except.error e, false⟩

/-- With an error-free codec the fallible loop computes exactly the pure
sampler's output. -/
lemma runLoop_pure {α : Type} (imenc : α → List ℕ) (s : ℕ) :
    ∀ (c : ℕ) (frames : List α),
      runLoop (fun f => Except.ok (imenc f)) s c frames =
        Except.ok (base64FramesAux imenc s c frames)
  | _, [] => rfl
  | c, f :: rest => by
      unfold runLoop base64FramesAux
      by_cases h : c % s = 0 <;>
        simp [h, runLoop_pure imenc s (c + 1) rest, Except.map]

/-- **C9 (counterexample).** A run in which the first frame's encode step
fails: the loop exits with the error and `video.release()` is never
executed — the handle is not released on this failure path. -/
theorem release_skipped_on_encode_failure :
    (extractFrames
          (fun _ : ℕ => (Except.error "cv2.error: imencode failed" :
            Except String (List ℕ))) 1 [0]).result =
        Except.error "cv2.error: imencode failed" ∧
      (extractFrames
          (fun _ : ℕ => (Except.error "cv2.error: imencode failed" :
            Except String (List ℕ))) 1 [0]).released = false :=
  ⟨rfl, rfl⟩

/-- **C9 (amended).** The handle is released exactly on the normal exit
path: `released` is true iff the sampling loop ran to completion (which
covers end-of-stream and `video.read()` decode failure, both of which break
the loop normally); when the loop body fails partway the handle is not
released. -/
theorem release_iff_normal_exit {α : Type} (imenc : α → Except String (List ℕ))
    (s : ℕ) (frames : List α) :
    (extractFrames imenc s frames).released = true ↔
      ∃ out, (extractFrames imenc s frames).result = Except.ok out := by
  unfold extractFrames
  cases h : runLoop imenc s 0 frames <;> simp

/-!
## Base64 round-trip (C10)
-/

lemma b64val_b64char : ∀ n : ℕ, n < 64 → b64val (b64char n) = some n := by decide

lemma b64char_ne_pad : ∀ n : ℕ, n < 64 → b64char n ≠ '=' := by decide

theorem b64_roundtrip :
    ∀ l : List ℕ, (∀ b ∈ l, b < 256) → b64decode (b64encode l) = some l
  | [], _ => rfl
  | [a], h => by
      have ha : a < 256 := h a (by simp)
      have h1 : b64val (b64char (a / 4)) = some (a / 4) :=
        b64val_b64char _ (by omega)
      have h2 : b64val (b64char (a % 4 * 16)) = some (a % 4 * 16) :=
        b64val_b64char _ (by omega)
      have e1 : a / 4 * 4 + a % 4 * 16 / 16 = a := by omega
      show b64decode [b64char (a / 4), b64char (a % 4 * 16), '=', '='] = some [a]
      simp only [b64decode, h1, h2]
      simp
      omega
  | [a, b], h => by
      have ha : a < 256 := h a (by simp)
      have hb : b < 256 := h b (by simp)
      have h1 : b64val (b64char (a / 4)) = some (a / 4) :=
        b64val_b64char _ (by omega)
      have h2 : b64val (b64char (a % 4 * 16 + b / 16)) =
          some (a % 4 * 16 + b / 16) := b64val_b64char _ (by omega)
      have h3 : b64val (b64char (b % 16 * 4)) = some (b % 16 * 4) :=
        b64val_b64char _ (by omega)
      have hne : b64char (b % 16 * 4) ≠ '=' := b64char_ne_pad _ (by omega)
      have e1 : a / 4 * 4 + (a % 4 * 16 + b / 16) / 16 = a := by omega
      have e2 : (a % 4 * 16 + b / 16) % 16 * 16 + b % 16 * 4 / 4 = b := by omega
      show b64decode [b64char (a / 4), b64char (a % 4 * 16 + b / 16),
        b64char (b % 16 * 4), '='] = some [a, b]
      simp only [b64decode, h1, h2, h3, if_neg hne]
      simp
      omega
  | a :: b :: c :: rest, h => by
      have ha : a < 256 := h a (by simp)
      have hb : b < 256 := h b (by simp)
      have hc : c < 256 := h c (by simp)
      have ih := b64_roundtrip rest (fun x hx => h x (by simp [hx]))
      have h1 : b64val (b64char (a / 4)) = some (a / 4) :=
        b64val_b64char _ (by omega)
      have h2 : b64val (b64char (a % 4 * 16 + b / 16)) =
          some (a % 4 * 16 + b / 16) := b64val_b64char _ (by omega)
      have h3 : b64val (b64char (b % 16 * 4 + c / 64)) =
          some (b % 16 * 4 + c / 64) := b64val_b64char _ (by omega)
      have h4 : b64val (b64char (c % 64)) = some (c % 64) :=
        b64val_b64char _ (by omega)
      have hne3 : b64char (b % 16 * 4 + c / 64) ≠ '=' := b64char_ne_pad _ (by omega)
      have hne4 : b64char (c % 64) ≠ '=' := b64char_ne_pad _ (by omega)
      have e1 : a / 4 * 4 + (a % 4 * 16 + b / 16) / 16 = a := by omega
      have e2 : (a % 4 * 16 + b / 16) % 16 * 16 + (b % 16 * 4 + c / 64) / 4 = b := by
        omega
      have e3 : (b % 16 * 4 + c / 64) % 4 * 64 + c % 64 = c := by omega
      show b64decode (b64char (a / 4) :: b64char (a % 4 * 16 + b / 16) ::
        b64char (b % 16 * 4 + c / 64) :: b64char (c % 64) :: b64encode rest) =
        some (a :: b :: c :: rest)
      simp only [b64decode, h1, h2, h3, h4, if_neg hne3, if_neg hne4, ih]
      simp
      omega

lemma drop_prefix_append (l₁ l₂ : List Char) : (l₁ ++ l₂).drop l₁.length = l₂ := by
  simp

/-- **C10.** The data URI built for an encoded frame is the fixed prefix
followed by the base64 text; stripping the prefix and base64-decoding the
remainder recovers exactly the original compressed frame buffer. -/
theorem dataURI_roundtrip (d : String) (buf : List ℕ) (h : ∀ b ∈ buf, b < 256) :
    imageItem d (b64encode buf) =
        ContentItem.image_url (dataURIPrefix ++ b64encode buf)
          ({d} : Finset String) ∧
      b64decode ((dataURIPrefix ++ b64encode buf).drop dataURIPrefix.length) =
        some buf := by
  refine ⟨rfl, ?_⟩
  rw [drop_prefix_append]
  exact b64_roundtrip buf h

/-- Witness for C10 on the concrete buffer `[255, 0, 77, 10]`. -/
theorem dataURI_roundtrip_witness :
    (∀ b ∈ [255, 0, 77, 10], b < 256) ∧
      (imageItem "low" (b64encode [255, 0, 77, 10]) =
          ContentItem.image_url (dataURIPrefix ++ b64encode [255, 0, 77, 10])
            ({"low"} : Finset String) ∧
        b64decode ((dataURIPrefix ++ b64encode [255, 0, 77, 10]).drop
            dataURIPrefix.length) = some [255, 0, 77, 10]) :=
  ⟨by decide, dataURI_roundtrip "low" [255, 0, 77, 10] (by decide)⟩

end VideoUnderstanding
